import Mathlib

/-!
Shallow embedding of the `dmitigr::que` FIFO container adapters
(`fifo_array.hpp`, `fifo_string.hpp`) and verification of the
specification's claims about them.

Modelling conventions:
* `std::array<T, N>` storage is a `List α` (length `N` in every state the
  claims speak about); `std::basic_string` storage is a `List α`.
* Offsets (`size_type`, a 64-bit unsigned integer) are `Nat`; the one place
  where unsigned wraparound can matter is the subtraction inside `size()`,
  which is modelled by `usub` below (subtraction modulo `2 ^ 64`).
* Reading an element out of range is undefined behaviour in C++; it is
  modelled by `List.getD _ _ default`.  Writing out of range
  (`push_back` past capacity, also undefined behaviour) is modelled by
  `List.set`, which leaves the list unchanged out of range.  Every claim
  about these reads/writes carries the corresponding precondition, so the
  modelling of the undefined cases never influences a verdict.
-/

/-- Cardinality of the C++ `size_type` (64-bit `std::size_t`): `2 ^ 64`. -/
def sizeTypeCard : Nat := 18446744073709551616

/-- Unsigned subtraction of two `size_type` values, i.e. subtraction
modulo `2 ^ 64`, as performed by `push_offset_ - pop_offset_` in C++. -/
def usub (a b : Nat) : Nat :=
  (a % sizeTypeCard + (sizeTypeCard - b % sizeTypeCard)) % sizeTypeCard

/-- State of `dmitigr::que::Fifo_array<T, N>` (`fifo_array.hpp`): the
`std::array<T, N> data_` member plus the two cursors. -/
structure Fifo_array (α : Type) (N : Nat) where
  data : List α
  pop_offset : Nat
  push_offset : Nat
deriving DecidableEq, Repr

namespace Fifo_array

variable {α : Type} {N : Nat}

/-- The default constructor `Fifo_array()`: both offsets are
value-initialized to zero; the `std::array` holds `N` (indeterminate,
modelled as `default`) elements. -/
def init (α : Type) [Inhabited α] (N : Nat) : Fifo_array α N :=
  ⟨List.replicate N default, 0, 0⟩

/-- Member `front()`: `*(data_.begin() + pop_offset_)`. -/
def front [Inhabited α] (s : Fifo_array α N) : α :=
  s.data.getD s.pop_offset default

/-- Member `back()`: `*(data_.begin() + push_offset_ - 1)`. -/
def back [Inhabited α] (s : Fifo_array α N) : α :=
  s.data.getD (s.push_offset - 1) default

/-- Member `push_back(value)`: `data_[push_offset_++] = value`. -/
def push_back (v : α) (s : Fifo_array α N) : Fifo_array α N :=
  ⟨s.data.set s.push_offset v, s.pop_offset, s.push_offset + 1⟩

/-- Member `pop_front()`: `pop_offset_ = std::min(pop_offset_ + 1, data_.size())`,
where `data_.size()` of a `std::array<T, N>` is the capacity `N`. -/
def pop_front (s : Fifo_array α N) : Fifo_array α N :=
  ⟨s.data, min (s.pop_offset + 1) N, s.push_offset⟩

/-- Member `unpop_front()`: `if (pop_offset_) --pop_offset_;`. -/
def unpop_front (s : Fifo_array α N) : Fifo_array α N :=
  ⟨s.data, if s.pop_offset ≠ 0 then s.pop_offset - 1 else s.pop_offset,
    s.push_offset⟩

/-- Member `unpop_all()`: `pop_offset_ = 0;`. -/
def unpop_all (s : Fifo_array α N) : Fifo_array α N :=
  ⟨s.data, 0, s.push_offset⟩

/-- Member `size()`: `push_offset_ - pop_offset_` (unsigned subtraction). -/
def size (s : Fifo_array α N) : Nat :=
  usub s.push_offset s.pop_offset

/-- Member `empty()`: `!size()`. -/
def empty (s : Fifo_array α N) : Bool :=
  size s == 0

/-- Member `clear()`: `pop_offset_ = push_offset_ = 0;`. -/
def clear (s : Fifo_array α N) : Fifo_array α N :=
  ⟨s.data, 0, 0⟩

/-- Member `swap(other)`: member-wise swap of `data_`, `pop_offset_` and
`push_offset_`; the pair holds the post-swap `(this, other)` states. -/
def swap (a b : Fifo_array α N) : Fifo_array α N × Fifo_array α N :=
  (⟨b.data, b.pop_offset, b.push_offset⟩, ⟨a.data, a.pop_offset, a.push_offset⟩)

/-- A sequence of `push_back` calls, first element pushed first. -/
def pushSeq (vs : List α) (s : Fifo_array α N) : Fifo_array α N :=
  vs.foldl (fun t v => push_back v t) s

/-- Iterated `pop_front`: `k` successive calls. -/
def popN : Nat → Fifo_array α N → Fifo_array α N
  | 0, s => s
  | k + 1, s => popN k (pop_front s)

/-- The data-model invariant stated in the spec (§3):
`0 ≤ pop_offset ≤ push_offset ≤ N`. -/
def Inv (s : Fifo_array α N) : Prop :=
  s.pop_offset ≤ s.push_offset ∧ s.push_offset ≤ N

instance (s : Fifo_array α N) : Decidable (Inv s) := by
  unfold Inv; infer_instance

end Fifo_array

/-- State of `dmitigr::que::Basic_fifo_string` (`fifo_string.hpp`): the
`std::basic_string data_` member plus the single cursor `offset_`. -/
structure Basic_fifo_string (α : Type) where
  data : List α
  offset : Nat
deriving DecidableEq, Repr

namespace Basic_fifo_string

variable {α : Type}

/-- The pass-through constructor: `data_` is built from the arguments
(here: an explicit element list) and `offset_` is default-initialized
to zero. -/
def mkFrom (d : List α) : Basic_fifo_string α :=
  ⟨d, 0⟩

/-- Member `size()`: `data_.size() - offset_` (unsigned subtraction). -/
def size (s : Basic_fifo_string α) : Nat :=
  usub s.data.length s.offset

/-- Member `view()`: `{data(), size()}`, the region of `size()` elements starting
at `data_.data() + offset_`. -/
def view (s : Basic_fifo_string α) : List α :=
  (s.data.drop s.offset).take (size s)

/-- Member `front()`: `*(data_.begin() + offset_)`. -/
def front [Inhabited α] (s : Basic_fifo_string α) : α :=
  s.data.getD s.offset default

/-- Member `back()`: `data_.back()`. -/
def back [Inhabited α] (s : Basic_fifo_string α) : α :=
  s.data.getLast?.getD default

/-- Member `push_back(value)`: `data_.push_back(value);`. -/
def push_back (v : α) (s : Basic_fifo_string α) : Basic_fifo_string α :=
  ⟨s.data ++ [v], s.offset⟩

/-- Member `pop_front()`: `offset_ = std::min(offset_ + 1, data_.size());`. -/
def pop_front (s : Basic_fifo_string α) : Basic_fifo_string α :=
  ⟨s.data, min (s.offset + 1) s.data.length⟩

/-- Member `unpop_front()`: `if (offset_) --offset_;`. -/
def unpop_front (s : Basic_fifo_string α) : Basic_fifo_string α :=
  ⟨s.data, if s.offset ≠ 0 then s.offset - 1 else s.offset⟩

/-- Member `unpop_all()`: `offset_ = 0;`. -/
def unpop_all (s : Basic_fifo_string α) : Basic_fifo_string α :=
  ⟨s.data, 0⟩

/-- Member `empty()`: `!size()`. -/
def empty (s : Basic_fifo_string α) : Bool :=
  size s == 0

/-- Member `clear()`: `data_.clear(); offset_ = 0;`. -/
def clear (_s : Basic_fifo_string α) : Basic_fifo_string α :=
  ⟨[], 0⟩

/-- Member `swap(other)`: member-wise swap of `data_` and `offset_`; the pair
holds the post-swap `(this, other)` states. -/
def swap (a b : Basic_fifo_string α) :
    Basic_fifo_string α × Basic_fifo_string α :=
  (⟨b.data, b.offset⟩, ⟨a.data, a.offset⟩)

/-- A sequence of `push_back` calls, first element pushed first. -/
def pushSeq (vs : List α) (s : Basic_fifo_string α) : Basic_fifo_string α :=
  vs.foldl (fun t v => push_back v t) s

/-- Iterated `pop_front`: `k` successive calls. -/
def popN : Nat → Basic_fifo_string α → Basic_fifo_string α
  | 0, s => s
  | k + 1, s => popN k (pop_front s)

/-- The data-model invariant stated in the spec (§3):
`0 ≤ offset ≤ length(storage)`. -/
def Inv (s : Basic_fifo_string α) : Prop :=
  s.offset ≤ s.data.length

instance (s : Basic_fifo_string α) : Decidable (Inv s) := by
  unfold Inv; infer_instance

end Basic_fifo_string

theorem sizeTypeCard_eq_pow : sizeTypeCard = 2 ^ 64 := by
  norm_num [sizeTypeCard]

theorem usub_eq_sub (a b : Nat) (hba : b ≤ a) (ha : a < sizeTypeCard) :
    usub a b = a - b := by
  unfold usub sizeTypeCard
  unfold sizeTypeCard at ha
  omega

theorem Fifo_array.pushSeq_cons {α : Type} {N : Nat} (v : α) (tl : List α)
    (s : Fifo_array α N) :
    pushSeq (v :: tl) s = pushSeq tl (push_back v s) :=
  rfl

theorem Fifo_array.pushSeq_pop_offset {α : Type} {N : Nat} (vs : List α)
    (s : Fifo_array α N) :
    (pushSeq vs s).pop_offset = s.pop_offset := by
  induction vs generalizing s with
  | nil => rfl
  | cons v tl ih => rw [pushSeq_cons, ih]; rfl

theorem Fifo_array.pushSeq_push_offset {α : Type} {N : Nat} (vs : List α)
    (s : Fifo_array α N) :
    (pushSeq vs s).push_offset = s.push_offset + vs.length := by
  induction vs generalizing s with
  | nil => rfl
  | cons v tl ih =>
    rw [pushSeq_cons, ih]
    show s.push_offset + 1 + tl.length = s.push_offset + (tl.length + 1)
    omega

theorem Fifo_array.pushSeq_data_length {α : Type} {N : Nat} (vs : List α)
    (s : Fifo_array α N) :
    (pushSeq vs s).data.length = s.data.length := by
  induction vs generalizing s with
  | nil => rfl
  | cons v tl ih =>
    rw [pushSeq_cons, ih]
    exact List.length_set s.data s.push_offset v

theorem Fifo_array.pushSeq_getD_frame {α : Type} {N : Nat} [Inhabited α]
    (vs : List α) (s : Fifo_array α N) (j : Nat) (hj : j < s.push_offset) :
    (pushSeq vs s).data.getD j default = s.data.getD j default := by
  induction vs generalizing s with
  | nil => rfl
  | cons v tl ih =>
    rw [pushSeq_cons,
      ih (push_back v s) (show j < s.push_offset + 1 by omega)]
    show (s.data.set s.push_offset v).getD j default = s.data.getD j default
    rw [List.getD_eq_getElem?_getD, List.getD_eq_getElem?_getD,
      List.getElem?_set_ne (show s.push_offset ≠ j by omega)]

theorem Fifo_array.pushSeq_getD {α : Type} {N : Nat} [Inhabited α]
    (vs : List α) (s : Fifo_array α N) (i : Nat) (hi : i < vs.length)
    (hfit : s.push_offset + vs.length ≤ s.data.length) :
    (pushSeq vs s).data.getD (s.push_offset + i) default
      = vs.getD i default := by
  induction vs generalizing s i with
  | nil => exact absurd hi (Nat.not_lt_zero i)
  | cons v tl ih =>
    rw [pushSeq_cons]
    have hlen : tl.length + 1 = (v :: tl).length := rfl
    cases i with
    | zero =>
      rw [Nat.add_zero]
      have hlt : s.push_offset < s.data.length := by omega
      rw [pushSeq_getD_frame tl (push_back v s) s.push_offset
        (show s.push_offset < s.push_offset + 1 by omega)]
      show (s.data.set s.push_offset v).getD s.push_offset default
        = (v :: tl).getD 0 default
      rw [List.getD_eq_getElem?_getD, List.getElem?_set_eq_of_lt v hlt]
      rfl
    | succ i =>
      have harith : s.push_offset + (i + 1)
          = (push_back v s).push_offset + i := by
        show _ = s.push_offset + 1 + i
        omega
      rw [harith, ih (push_back v s) i (by omega)
        (by rw [show (push_back v s).data = s.data.set s.push_offset v
              from rfl,
            List.length_set]
            show s.push_offset + 1 + tl.length ≤ s.data.length
            omega)]
      rfl

theorem Fifo_array.popN_push_offset {α : Type} {N : Nat} (k : Nat)
    (s : Fifo_array α N) :
    (popN k s).push_offset = s.push_offset := by
  induction k generalizing s with
  | zero => rfl
  | succ k ih => exact ih (pop_front s)

theorem Fifo_array.popN_data {α : Type} {N : Nat} (k : Nat)
    (s : Fifo_array α N) :
    (popN k s).data = s.data := by
  induction k generalizing s with
  | zero => rfl
  | succ k ih => exact ih (pop_front s)

theorem Basic_fifo_string.pushSeq_cons_str {α : Type} (v : α) (tl : List α)
    (t : Basic_fifo_string α) :
    pushSeq (v :: tl) t = pushSeq tl (push_back v t) :=
  rfl

theorem Basic_fifo_string.pushSeq_data {α : Type} (vs : List α)
    (t : Basic_fifo_string α) :
    (pushSeq vs t).data = t.data ++ vs := by
  induction vs generalizing t with
  | nil => simp [pushSeq]
  | cons v tl ih =>
    rw [pushSeq_cons_str, ih]
    show (t.data ++ [v]) ++ tl = t.data ++ (v :: tl)
    simp

theorem Basic_fifo_string.pushSeq_offset {α : Type} (vs : List α)
    (t : Basic_fifo_string α) :
    (pushSeq vs t).offset = t.offset := by
  induction vs generalizing t with
  | nil => rfl
  | cons v tl ih => rw [pushSeq_cons_str, ih]; rfl

theorem Basic_fifo_string.popN_data_str {α : Type} (k : Nat)
    (t : Basic_fifo_string α) :
    (popN k t).data = t.data := by
  induction k generalizing t with
  | zero => rfl
  | succ k ih => exact ih (pop_front t)

/-- C1: in the fixed adapter `pop_front` sets the pop offset to
`min(pop_offset + 1, N)` where `N` is the total capacity; in the growable
adapter `pop_front` sets the offset to `min(offset + 1, length(storage))`;
and `pop_front` on an empty fixed adapter may leave `pop_offset` greater
than `push_offset` (shown at the empty two-slot adapter). -/
theorem C1_pop_front_clamps_to_capacity {α β : Type} {N : Nat}
    (s : Fifo_array α N) (t : Basic_fifo_string β) :
    (Fifo_array.pop_front s).pop_offset = min (s.pop_offset + 1) N ∧
    (Basic_fifo_string.pop_front t).offset
      = min (t.offset + 1) t.data.length ∧
    (Fifo_array.empty (Fifo_array.init Nat 2) = true ∧
      (Fifo_array.pop_front (Fifo_array.init Nat 2)).push_offset
        < (Fifo_array.pop_front (Fifo_array.init Nat 2)).pop_offset) :=
  ⟨rfl, rfl, by decide, by decide⟩

/-- C8: in the fixed adapter, `clear` sets both offsets to zero, leaves
every element of the underlying storage unchanged, and afterwards
`size()` is `0` and `empty()` is `true`. -/
theorem C8_clear_resets_offsets_keeps_storage {α : Type} {N : Nat}
    (s : Fifo_array α N) :
    (Fifo_array.clear s).pop_offset = 0 ∧
    (Fifo_array.clear s).push_offset = 0 ∧
    (Fifo_array.clear s).data = s.data ∧
    Fifo_array.size (Fifo_array.clear s) = 0 ∧
    Fifo_array.empty (Fifo_array.clear s) = true :=
  ⟨rfl, rfl, rfl, show usub 0 0 = 0 by decide,
    show (usub 0 0 == 0) = true by decide⟩

/-- C10: in the fixed adapter, `pop_front`, `unpop_front` and `unpop_all`
modify only the pop offset: the push offset and the storage array are
unchanged. -/
theorem C10_pop_ops_touch_only_pop_offset {α : Type} {N : Nat}
    (s : Fifo_array α N) :
    ((Fifo_array.pop_front s).push_offset = s.push_offset ∧
      (Fifo_array.pop_front s).data = s.data) ∧
    ((Fifo_array.unpop_front s).push_offset = s.push_offset ∧
      (Fifo_array.unpop_front s).data = s.data) ∧
    ((Fifo_array.unpop_all s).push_offset = s.push_offset ∧
      (Fifo_array.unpop_all s).data = s.data) :=
  ⟨⟨rfl, rfl⟩, ⟨rfl, rfl⟩, ⟨rfl, rfl⟩⟩

/-- C7: `swap` exchanges the entire internal state of two adapters of the
same type, so the first result's `front`/`back`/`size` equal the second
argument's pre-swap values (and symmetrically), and swapping twice
restores both adapters. -/
theorem C7_swap_exchanges_state {α : Type} [Inhabited α] {N : Nat}
    (a b : Fifo_array α N) (c d : Basic_fifo_string α) :
    Fifo_array.swap a b = (b, a) ∧
    Fifo_array.front (Fifo_array.swap a b).1 = Fifo_array.front b ∧
    Fifo_array.back (Fifo_array.swap a b).1 = Fifo_array.back b ∧
    Fifo_array.size (Fifo_array.swap a b).1 = Fifo_array.size b ∧
    Fifo_array.front (Fifo_array.swap a b).2 = Fifo_array.front a ∧
    Fifo_array.back (Fifo_array.swap a b).2 = Fifo_array.back a ∧
    Fifo_array.size (Fifo_array.swap a b).2 = Fifo_array.size a ∧
    Fifo_array.swap (Fifo_array.swap a b).1 (Fifo_array.swap a b).2
      = (a, b) ∧
    Basic_fifo_string.swap c d = (d, c) ∧
    Basic_fifo_string.view (Basic_fifo_string.swap c d).1
      = Basic_fifo_string.view d ∧
    Basic_fifo_string.size (Basic_fifo_string.swap c d).1
      = Basic_fifo_string.size d ∧
    Basic_fifo_string.swap (Basic_fifo_string.swap c d).1
        (Basic_fifo_string.swap c d).2 = (c, d) :=
  ⟨rfl, rfl, rfl, rfl, rfl, rfl, rfl, rfl, rfl, rfl, rfl, rfl⟩

/-- C3 counterexample: in the growable-adapter scenario (push `'a'`,
`'b'`, `'c'` onto an empty adapter, then `pop_front` twice) `size()` is
`1`, not `2` as the claim states. -/
theorem C3_counterexample :
    ¬ (Basic_fifo_string.size
        (Basic_fifo_string.popN 2
          (Basic_fifo_string.pushSeq ['a', 'b', 'c']
            (Basic_fifo_string.mkFrom ([] : List Char)))) = 2) := by
  decide

/-- C3 amended: in the growable-adapter scenario, after pushes of `'a'`,
`'b'`, `'c'`, `view()` is `"abc"`; after two `pop_front` calls `view()`
is `"c"` and `size()` is `1`; after `unpop_all` `view()` is `"abc"` and
`size()` is `3`; after `clear` `size()` is `0` and `view()` is `""`. -/
theorem C3_growable_scenario :
    Basic_fifo_string.view
      (Basic_fifo_string.pushSeq ['a', 'b', 'c']
        (Basic_fifo_string.mkFrom ([] : List Char))) = ['a', 'b', 'c'] ∧
    Basic_fifo_string.view
      (Basic_fifo_string.popN 2
        (Basic_fifo_string.pushSeq ['a', 'b', 'c']
          (Basic_fifo_string.mkFrom ([] : List Char)))) = ['c'] ∧
    Basic_fifo_string.size
      (Basic_fifo_string.popN 2
        (Basic_fifo_string.pushSeq ['a', 'b', 'c']
          (Basic_fifo_string.mkFrom ([] : List Char)))) = 1 ∧
    Basic_fifo_string.view
      (Basic_fifo_string.unpop_all
        (Basic_fifo_string.popN 2
          (Basic_fifo_string.pushSeq ['a', 'b', 'c']
            (Basic_fifo_string.mkFrom ([] : List Char)))))
      = ['a', 'b', 'c'] ∧
    Basic_fifo_string.size
      (Basic_fifo_string.unpop_all
        (Basic_fifo_string.popN 2
          (Basic_fifo_string.pushSeq ['a', 'b', 'c']
            (Basic_fifo_string.mkFrom ([] : List Char))))) = 3 ∧
    Basic_fifo_string.size
      (Basic_fifo_string.clear
        (Basic_fifo_string.unpop_all
          (Basic_fifo_string.popN 2
            (Basic_fifo_string.pushSeq ['a', 'b', 'c']
              (Basic_fifo_string.mkFrom ([] : List Char)))))) = 0 ∧
    Basic_fifo_string.view
      (Basic_fifo_string.clear
        (Basic_fifo_string.unpop_all
          (Basic_fifo_string.popN 2
            (Basic_fifo_string.pushSeq ['a', 'b', 'c']
              (Basic_fifo_string.mkFrom ([] : List Char)))))) = [] := by
  refine ⟨by decide, by decide, by decide, by decide, by decide, by decide,
    by decide⟩

/-- C2 counterexample: the initial empty `Fifo_array Nat 4` satisfies
`pop_offset ≤ push_offset ≤ N`, yet one `pop_front` call (on the empty
adapter) produces `pop_offset = 1 > 0 = push_offset`, so the predicate is
not preserved by every operation. -/
theorem C2_counterexample :
    Fifo_array.Inv (Fifo_array.init Nat 4) ∧
    ¬ Fifo_array.Inv (Fifo_array.pop_front (Fifo_array.init Nat 4)) := by
  decide

/-- C2 amended: `0 ≤ pop_offset ≤ push_offset ≤ N` holds in the initial
state and is preserved by `push_back` under its capacity precondition, by
`pop_front` when the adapter is non-empty, and unconditionally by
`unpop_front`, `unpop_all`, `clear` and `swap`. -/
theorem C2_fixed_invariant_preserved {α : Type} [Inhabited α] {N : Nat}
    (hN : N < sizeTypeCard) (s u : Fifo_array α N) (v : α)
    (hs : Fifo_array.Inv s) (hu : Fifo_array.Inv u) :
    Fifo_array.Inv (Fifo_array.init α N) ∧
    (s.push_offset < N → Fifo_array.Inv (Fifo_array.push_back v s)) ∧
    (Fifo_array.empty s = false → Fifo_array.Inv (Fifo_array.pop_front s)) ∧
    Fifo_array.Inv (Fifo_array.unpop_front s) ∧
    Fifo_array.Inv (Fifo_array.unpop_all s) ∧
    Fifo_array.Inv (Fifo_array.clear s) ∧
    Fifo_array.Inv (Fifo_array.swap s u).1 ∧
    Fifo_array.Inv (Fifo_array.swap s u).2 := by
  obtain ⟨h1, h2⟩ := hs
  refine ⟨⟨Nat.le_refl 0, Nat.zero_le N⟩, ?_, ?_, ?_, ?_, ?_, hu, ⟨h1, h2⟩⟩
  · intro hlt
    exact ⟨Nat.le_succ_of_le h1, hlt⟩
  · intro hne
    have hsz : usub s.push_offset s.pop_offset
        = s.push_offset - s.pop_offset :=
      usub_eq_sub _ _ h1 (Nat.lt_of_le_of_lt h2 hN)
    have hlt : s.pop_offset < s.push_offset := by
      simp only [Fifo_array.empty, Fifo_array.size, hsz, beq_eq_false_iff_ne,
        ne_eq] at hne
      omega
    exact ⟨show min (s.pop_offset + 1) N ≤ s.push_offset by omega,
      h2⟩
  · refine ⟨?_, h2⟩
    show (if s.pop_offset ≠ 0 then s.pop_offset - 1 else s.pop_offset)
      ≤ s.push_offset
    split <;> omega
  · exact ⟨Nat.zero_le _, h2⟩
  · exact ⟨Nat.le_refl 0, Nat.zero_le N⟩

/-- C2 witness: the amended invariant theorem applied to the concrete
adapter `Fifo_array Nat 4`, pushing `7` into the empty adapter. -/
theorem C2_fixed_invariant_preserved_witness :
    Fifo_array.Inv
      (Fifo_array.push_back 7 (Fifo_array.init Nat 4)) :=
  (C2_fixed_invariant_preserved (by decide) (Fifo_array.init Nat 4)
    (Fifo_array.init Nat 4) 7 (by decide) (by decide)).2.1 (by decide)

/-- C9: in the growable adapter, `offset ≤ length(storage)` holds after
construction and is preserved by every operation; under the invariant
`size()` equals the exact difference `length(storage) - offset` (no
wraparound); and `pop_front` on an empty adapter leaves the state
unchanged. -/
theorem C9_growable_invariant {α : Type} (d : List α) (v : α)
    (t u : Basic_fifo_string α)
    (ht : Basic_fifo_string.Inv t) (hu : Basic_fifo_string.Inv u)
    (hlen : t.data.length < sizeTypeCard) :
    Basic_fifo_string.Inv (Basic_fifo_string.mkFrom d) ∧
    Basic_fifo_string.Inv (Basic_fifo_string.push_back v t) ∧
    Basic_fifo_string.Inv (Basic_fifo_string.pop_front t) ∧
    Basic_fifo_string.Inv (Basic_fifo_string.unpop_front t) ∧
    Basic_fifo_string.Inv (Basic_fifo_string.unpop_all t) ∧
    Basic_fifo_string.Inv (Basic_fifo_string.clear t) ∧
    Basic_fifo_string.Inv (Basic_fifo_string.swap t u).1 ∧
    Basic_fifo_string.Inv (Basic_fifo_string.swap t u).2 ∧
    Basic_fifo_string.size t = t.data.length - t.offset ∧
    (Basic_fifo_string.empty t = true → Basic_fifo_string.pop_front t = t)
    := by
  have hsz : Basic_fifo_string.size t = t.data.length - t.offset :=
    usub_eq_sub _ _ ht hlen
  refine ⟨Nat.zero_le _, ?_, ?_, ?_, Nat.zero_le _, Nat.le_refl 0, hu, ht,
    hsz, ?_⟩
  · show t.offset ≤ (t.data ++ [v]).length
    rw [List.length_append]
    exact Nat.le_add_right_of_le ht
  · exact Nat.min_le_right _ _
  · have ht2 : t.offset ≤ t.data.length := ht
    show (if t.offset ≠ 0 then t.offset - 1 else t.offset)
      ≤ t.data.length
    split <;> omega
  · intro hemp
    have : t.offset = t.data.length := by
      simp only [Basic_fifo_string.empty, hsz, beq_iff_eq] at hemp
      unfold Basic_fifo_string.Inv at ht
      omega
    obtain ⟨dd, oo⟩ := t
    simp only at this
    simp [Basic_fifo_string.pop_front, this]

/-- C9 witness: the growable-adapter invariant theorem applied to the
concrete small states; in particular
`pop_front` on the empty-by-offset adapter `⟨[3], 1⟩` is the identity. -/
theorem C9_growable_invariant_witness :
    Basic_fifo_string.pop_front (⟨[3], 1⟩ : Basic_fifo_string Nat)
      = (⟨[3], 1⟩ : Basic_fifo_string Nat) :=
  (C9_growable_invariant [1, 2] 5 (⟨[3], 1⟩ : Basic_fifo_string Nat)
    (⟨[], 0⟩ : Basic_fifo_string Nat) (by decide) (by decide)
    (by decide)).2.2.2.2.2.2.2.2.2 (by decide)

/-- C4: on any non-empty valid state of either adapter (at least one pop
is valid), `pop_front` immediately followed by `unpop_front` restores both
`size()` and `front()` to their pre-pop values. -/
theorem C4_pop_unpop_roundtrip {α : Type} [Inhabited α] {N : Nat}
    (s : Fifo_array α N) (t : Basic_fifo_string α)
    (hs1 : s.pop_offset < s.push_offset) (hs2 : s.push_offset ≤ N)
    (ht : t.offset < t.data.length) :
    Fifo_array.size (Fifo_array.unpop_front (Fifo_array.pop_front s))
      = Fifo_array.size s ∧
    Fifo_array.front (Fifo_array.unpop_front (Fifo_array.pop_front s))
      = Fifo_array.front s ∧
    Basic_fifo_string.size
      (Basic_fifo_string.unpop_front (Basic_fifo_string.pop_front t))
      = Basic_fifo_string.size t ∧
    Basic_fifo_string.front
      (Basic_fifo_string.unpop_front (Basic_fifo_string.pop_front t))
      = Basic_fifo_string.front t := by
  have hse : Fifo_array.unpop_front (Fifo_array.pop_front s) = s := by
    obtain ⟨d, p, q⟩ := s
    simp only at hs1 hs2
    have hmin : min (p + 1) N = p + 1 := Nat.min_eq_left (by omega)
    simp [Fifo_array.pop_front, Fifo_array.unpop_front, hmin]
  have hte : Basic_fifo_string.unpop_front (Basic_fifo_string.pop_front t)
      = t := by
    obtain ⟨d, o⟩ := t
    simp only at ht
    have hmin : min (o + 1) d.length = o + 1 := Nat.min_eq_left (by omega)
    simp [Basic_fifo_string.pop_front, Basic_fifo_string.unpop_front, hmin]
  rw [hse, hte]
  exact ⟨rfl, rfl, rfl, rfl⟩

/-- C4 witness: the round-trip law applied to the concrete states
`⟨[10, 20, 30, 0], 0, 3⟩ : Fifo_array Nat 4` and
`⟨[7, 8], 0⟩ : Basic_fifo_string Nat`. -/
theorem C4_pop_unpop_roundtrip_witness :
    Fifo_array.front (Fifo_array.unpop_front (Fifo_array.pop_front
        (⟨[10, 20, 30, 0], 0, 3⟩ : Fifo_array Nat 4)))
      = Fifo_array.front (⟨[10, 20, 30, 0], 0, 3⟩ : Fifo_array Nat 4) :=
  (C4_pop_unpop_roundtrip (⟨[10, 20, 30, 0], 0, 3⟩ : Fifo_array Nat 4)
    (⟨[7, 8], 0⟩ : Basic_fifo_string Nat) (by decide) (by decide)
    (by decide)).2.1

/-- C5: starting from a cleared (or freshly constructed) adapter, after
`p` pushes (at most the capacity for the fixed adapter) and any number of
`pop_front` calls, `unpop_all` makes `size()` equal `p`; for the growable
adapter the whole pushed sequence is again visible in `view()`. -/
theorem C5_unpop_all_restores_push_count {α : Type} {N : Nat}
    (hN : N < sizeTypeCard)
    (s : Fifo_array α N) (_hp : s.pop_offset = 0) (hq : s.push_offset = 0)
    (vs : List α) (hvs : vs.length ≤ N) (k : Nat)
    (t : Basic_fifo_string α) (htd : t.data = []) (_hto : t.offset = 0)
    (ws : List α) (hws : ws.length < sizeTypeCard) (m : Nat) :
    Fifo_array.size (Fifo_array.unpop_all
      (Fifo_array.popN k (Fifo_array.pushSeq vs s))) = vs.length ∧
    Basic_fifo_string.size (Basic_fifo_string.unpop_all
      (Basic_fifo_string.popN m (Basic_fifo_string.pushSeq ws t)))
      = ws.length ∧
    Basic_fifo_string.view (Basic_fifo_string.unpop_all
      (Basic_fifo_string.popN m (Basic_fifo_string.pushSeq ws t)))
      = ws := by
  have hdata :
      (Basic_fifo_string.popN m (Basic_fifo_string.pushSeq ws t)).data
        = ws := by
    rw [Basic_fifo_string.popN_data_str, Basic_fifo_string.pushSeq_data, htd]
    rfl
  refine ⟨?_, ?_, ?_⟩
  · show usub
      (Fifo_array.popN k (Fifo_array.pushSeq vs s)).push_offset 0
      = vs.length
    rw [Fifo_array.popN_push_offset, Fifo_array.pushSeq_push_offset, hq,
      Nat.zero_add, usub_eq_sub _ _ (Nat.zero_le _) (by omega)]
    exact Nat.sub_zero _
  · show usub
      (Basic_fifo_string.popN m (Basic_fifo_string.pushSeq ws t)).data.length
      0 = ws.length
    rw [hdata, usub_eq_sub _ _ (Nat.zero_le _) hws]
    exact Nat.sub_zero _
  · show
      ((Basic_fifo_string.popN m (Basic_fifo_string.pushSeq ws t)).data.drop
        0).take
        (usub
          (Basic_fifo_string.popN m
            (Basic_fifo_string.pushSeq ws t)).data.length 0)
      = ws
    rw [hdata, List.drop_zero, usub_eq_sub _ _ (Nat.zero_le _) hws,
      Nat.sub_zero, List.take_length]

/-- C5 witness: two pushes, five pops (more pops than pushes, exercising
the clamp), then `unpop_all` on a `Fifo_array Nat 4`: `size()` is `2`. -/
theorem C5_unpop_all_restores_push_count_witness :
    Fifo_array.size (Fifo_array.unpop_all (Fifo_array.popN 5
      (Fifo_array.pushSeq [1, 2]
        (⟨[0, 0, 0, 0], 0, 0⟩ : Fifo_array Nat 4)))) = 2 :=
  (C5_unpop_all_restores_push_count (by decide)
    (⟨[0, 0, 0, 0], 0, 0⟩ : Fifo_array Nat 4) rfl rfl [1, 2] (by decide) 5
    (⟨[], 0⟩ : Basic_fifo_string Nat) rfl rfl [7, 8, 9] (by decide) 2).1

/-- C6: after pushing the non-empty sequence `vs` (of length at most `N`
for the fixed adapter) onto an empty adapter with no pops, `front()` is
the first pushed value, `back()` is the last pushed value, and `size()`
is the number of pushes. -/
theorem C6_front_back_after_pushes {α : Type} [Inhabited α] {N : Nat}
    (hN : N < sizeTypeCard) (vs : List α) (hne : vs ≠ [])
    (hlen : vs.length ≤ N) :
    Fifo_array.front (Fifo_array.pushSeq vs (Fifo_array.init α N))
      = vs.head hne ∧
    Fifo_array.back (Fifo_array.pushSeq vs (Fifo_array.init α N))
      = vs.getLast hne ∧
    Fifo_array.size (Fifo_array.pushSeq vs (Fifo_array.init α N))
      = vs.length ∧
    Basic_fifo_string.front (Basic_fifo_string.pushSeq vs
      (Basic_fifo_string.mkFrom [])) = vs.head hne ∧
    Basic_fifo_string.back (Basic_fifo_string.pushSeq vs
      (Basic_fifo_string.mkFrom [])) = vs.getLast hne ∧
    Basic_fifo_string.size (Basic_fifo_string.pushSeq vs
      (Basic_fifo_string.mkFrom [])) = vs.length := by
  have hpos : 0 < vs.length := List.length_pos.mpr hne
  have hfit : (Fifo_array.init α N).push_offset + vs.length
      ≤ (Fifo_array.init α N).data.length := by
    show 0 + vs.length ≤ (List.replicate N (default : α)).length
    rw [List.length_replicate]
    omega
  have hhead : vs.getD 0 default = vs.head hne := by
    rw [List.getD_eq_getElem vs default hpos, List.head_eq_getElem]
  have hlast : vs.getD (vs.length - 1) default = vs.getLast hne := by
    rw [List.getD_eq_getElem vs default (by omega), List.getLast_eq_getElem]
  have hfront :
      Fifo_array.front (Fifo_array.pushSeq vs (Fifo_array.init α N))
        = vs.getD 0 default := by
    show (Fifo_array.pushSeq vs (Fifo_array.init α N)).data.getD
      (Fifo_array.pushSeq vs (Fifo_array.init α N)).pop_offset default = _
    rw [Fifo_array.pushSeq_pop_offset]
    show (Fifo_array.pushSeq vs (Fifo_array.init α N)).data.getD
      ((Fifo_array.init α N).push_offset + 0) default = _
    exact Fifo_array.pushSeq_getD vs _ 0 hpos hfit
  have hback :
      Fifo_array.back (Fifo_array.pushSeq vs (Fifo_array.init α N))
        = vs.getD (vs.length - 1) default := by
    show (Fifo_array.pushSeq vs (Fifo_array.init α N)).data.getD
      ((Fifo_array.pushSeq vs (Fifo_array.init α N)).push_offset - 1)
      default = _
    rw [Fifo_array.pushSeq_push_offset]
    have harith : (Fifo_array.init α N).push_offset + vs.length - 1
        = (Fifo_array.init α N).push_offset + (vs.length - 1) := by
      show 0 + vs.length - 1 = 0 + (vs.length - 1)
      omega
    rw [harith]
    exact Fifo_array.pushSeq_getD vs _ (vs.length - 1) (by omega) hfit
  have hsize :
      Fifo_array.size (Fifo_array.pushSeq vs (Fifo_array.init α N))
        = vs.length := by
    show usub (Fifo_array.pushSeq vs (Fifo_array.init α N)).push_offset
      (Fifo_array.pushSeq vs (Fifo_array.init α N)).pop_offset = vs.length
    rw [Fifo_array.pushSeq_push_offset, Fifo_array.pushSeq_pop_offset]
    show usub (0 + vs.length) 0 = vs.length
    rw [Nat.zero_add, usub_eq_sub _ _ (Nat.zero_le _) (by omega)]
    exact Nat.sub_zero _
  have hgdata : (Basic_fifo_string.pushSeq vs
      (Basic_fifo_string.mkFrom ([] : List α))).data = vs := by
    rw [Basic_fifo_string.pushSeq_data]
    rfl
  have hgoff : (Basic_fifo_string.pushSeq vs
      (Basic_fifo_string.mkFrom ([] : List α))).offset = 0 := by
    rw [Basic_fifo_string.pushSeq_offset]
    rfl
  have hgfront : Basic_fifo_string.front (Basic_fifo_string.pushSeq vs
      (Basic_fifo_string.mkFrom ([] : List α))) = vs.head hne := by
    show (Basic_fifo_string.pushSeq vs
      (Basic_fifo_string.mkFrom ([] : List α))).data.getD
      (Basic_fifo_string.pushSeq vs
        (Basic_fifo_string.mkFrom ([] : List α))).offset default = _
    rw [hgdata, hgoff, hhead]
  have hgback : Basic_fifo_string.back (Basic_fifo_string.pushSeq vs
      (Basic_fifo_string.mkFrom ([] : List α))) = vs.getLast hne := by
    show (Basic_fifo_string.pushSeq vs
      (Basic_fifo_string.mkFrom ([] : List α))).data.getLast?.getD default
      = _
    rw [hgdata, List.getLast?_eq_getLast vs hne]
    rfl
  have hgsize : Basic_fifo_string.size (Basic_fifo_string.pushSeq vs
      (Basic_fifo_string.mkFrom ([] : List α))) = vs.length := by
    show usub (Basic_fifo_string.pushSeq vs
      (Basic_fifo_string.mkFrom ([] : List α))).data.length
      (Basic_fifo_string.pushSeq vs
        (Basic_fifo_string.mkFrom ([] : List α))).offset = vs.length
    rw [hgdata, hgoff, usub_eq_sub _ _ (Nat.zero_le _) (by omega)]
    exact Nat.sub_zero _
  exact ⟨hfront.trans hhead, hback.trans hlast, hsize, hgfront, hgback,
    hgsize⟩

/-- C6 witness: pushing `[10, 20, 30]` onto empty adapters of capacity 4:
`front()` of the fixed adapter is `10`. -/
theorem C6_front_back_after_pushes_witness :
    Fifo_array.front (Fifo_array.pushSeq [10, 20, 30]
      (Fifo_array.init Nat 4)) = 10 :=
  (C6_front_back_after_pushes (by decide) [10, 20, 30] (by decide)
    (by decide)).1
